import Mathlib

/-!
# Verification of the roots-db S3 attachment driver

Shallow embedding of `lib/s3.attachmentDriver.js` (the current S3-backed
attachment driver of roots-db-ext-s3) together with theorems settling the
specification claims.

JavaScript strings are modelled as `List Char` (`Str`), byte buffers as
`List Nat`, and the process-wide `storageEndpointFoolproof` `Map` as an
association list threaded explicitly through the constructor.  The external
`s3k-core` client is modelled as an in-memory key/value object store with an
explicit fault oracle for backend/transport errors; the external `hash-kit`
identifier generator is modelled from its documented contract (a random
string over the 36-symbol alphabet of digits and lowercase letters).
-/

/-- JavaScript strings, modelled as lists of characters. -/
abbrev Str := List Char

/-- Convenience injection of Lean string literals into the model. -/
def str (s : String) : Str := s.data

deriving instance DecidableEq for Except

/-- Splitting a string on a separator character, as JS `String#split` does:
the result always has one more segment than there are separators, and
segments may be empty. -/
def splitOnChar (c : Char) : Str → List Str
  | [] => [[]]
  | x :: xs =>
    match splitOnChar c xs with
    | [] => [[]]
    | seg :: rest => if x = c then [] :: seg :: rest else (x :: seg) :: rest

/-- Joining segments with `'/'`, as JS `Array#join('/')` does. -/
def joinSlash : List Str → Str
  | [] => []
  | [s] => s
  | s :: rest => s ++ '/' :: joinSlash rest

/-- Errors surfaced by the driver or by the modelled backend client. -/
inductive Err where
  /-- `"S3AttachmentDriver: missing bucket and prefix part in S3 driver URL"`. -/
  | missingBucketPrefix
  /-- `storageEndpointSharing`: the failure site surfaces the shared address,
  the first collection URL that claimed it, and the conflicting new one. -/
  | storageEndpointSharing (fullEndpoint firstUrl newUrl : Str)
  /-- `save` payload is neither a string, a `Buffer`, nor a readable stream. -/
  | unsupportedPayload
  /-- Typed missing-object error from the backend (`NoSuchKey`). -/
  | noSuchKey (key : Str)
  /-- Generic backend/transport error, carried unchanged. -/
  | backend (code : Str)
  deriving DecidableEq

/-- Parsing of `collection.attachmentConfig.pathname` into bucket and prefix:
split on `'/'`, keep the non-empty parts, require at least two of them; the
first is the bucket and the rest rejoined with `'/'` make the prefix, which
gets a trailing `'/'` appended when it does not already end with one
(source lines 56–66). -/
def parseBucketPrefix (pathname : Str) : Except Err (Str × Str) :=
  let parts := (splitOnChar '/' pathname).filter (fun part => part.length != 0)
  match parts with
  | [] => .error .missingBucketPrefix
  | [_] => .error .missingBucketPrefix
  | bucket :: rest@(_ :: _) =>
    let pfx := joinSlash rest
    let pfx := if pfx.getLast? != some '/' then pfx ++ ['/'] else pfx
    .ok (bucket, pfx)

/-- Configuration handed to the `S3k` client (source lines 68–74). -/
structure S3Config where
  endpoint : Str
  accessKeyId : Str
  secretAccessKey : Str
  bucket : Str
  pfx : Str
  deriving DecidableEq

/-- The slice of the host collection the driver reads. -/
structure Collection where
  url : Str
  pathname : Str
  hostname : Str
  username : Str
  password : Str
  attachmentAppendExtension : Bool
  attachmentPublicBaseUrl : Option Str
  deriving DecidableEq

/-- The driver state built by a successful construction. -/
structure S3Driver where
  collectionUrl : Str
  appendExtension : Bool
  publicBaseUrl : Option Str
  s3 : S3Config
  deriving DecidableEq

/-- The process-wide `storageEndpointFoolproof` map: full endpoint address
to the URL of the first collection that claimed it. -/
abbrev Registry := List (Str × Str)

/-- Lookup in the registry (JS `Map#has` / `Map#get`). -/
def lookupReg : Registry → Str → Option Str
  | [], _ => none
  | (k, v) :: rest, key => if k = key then some v else lookupReg rest key

/-- `fullEndpoint = endpoint + '/' + bucket + '/' + prefix` (source line 76). -/
def mkFullEndpoint (endpoint bucket pfx : Str) : Str :=
  endpoint ++ '/' :: bucket ++ '/' :: pfx

/-- Construction of the driver (`S3AttachmentDriver`, source lines 52–98):
parse the pathname, build the client config, then run the
check-then-set on the process-wide endpoint registry.  Returns the
constructor's outcome together with the registry after the call. -/
def s3AttachmentDriver (reg : Registry) (collection : Collection) :
    Except Err S3Driver × Registry :=
  match parseBucketPrefix collection.pathname with
  | .error e => (.error e, reg)
  | .ok (bucket, pfx) =>
    let s3Config : S3Config :=
      { endpoint := collection.hostname
        accessKeyId := collection.username
        secretAccessKey := collection.password
        bucket := bucket
        pfx := pfx }
    let drv : S3Driver :=
      { collectionUrl := collection.url
        appendExtension := collection.attachmentAppendExtension
        publicBaseUrl := collection.attachmentPublicBaseUrl
        s3 := s3Config }
    let fullEndpoint := mkFullEndpoint s3Config.endpoint bucket pfx
    match lookupReg reg fullEndpoint with
    | some firstCollectionUrl =>
      if firstCollectionUrl = collection.url then
        (.ok drv, reg)
      else
        (.error (.storageEndpointSharing fullEndpoint firstCollectionUrl collection.url), reg)
    | none =>
      (.ok drv, (fullEndpoint, collection.url) :: reg)

/-- Truthiness of an optional JS string (`undefined`, `null` and `""` are
falsy). -/
def optTruthy : Option Str → Bool
  | none => false
  | some s => !s.isEmpty

/-- The payload of a save in progress, discriminated the way the source does
with `typeof`, `Buffer.isBuffer` and `instanceof stream.Readable`:
a JS string, an in-memory `Buffer`, a readable stream delivering its bytes
in chunks, or any other value (`other`). -/
inductive Incoming where
  | str (s : Str)
  | buffer (b : List Nat)
  | readable (chunks : List (List Nat))
  | other
  deriving DecidableEq

/-- An attachment record as this driver sees it. -/
structure Attachment where
  id : Option Str
  extension : Option Str
  documentId : Str
  path : Str
  publicUrl : Option Str
  incoming : Incoming
  deriving DecidableEq

/-- The 36-symbol alphabet of the identifier generator: digits then
lowercase letters. -/
def base36Alphabet : Str := str "0123456789abcdefghijklmnopqrstuvwxyz"

/-- Modelled external dependency `hash-kit`'s `randomBase36String(n)`:
an `n`-character random string over `base36Alphabet`.  The entropy source is
made explicit as a list of naturals; each output character is the alphabet
symbol indexed by the corresponding entropy value modulo 36. -/
def randomBase36String (n : Nat) (entropy : List Nat) : Str :=
  (List.range n).map (fun i => base36Alphabet.getD ((entropy.getD i 0) % 36) '0')

/-- One step of path-segment normalization, as Node's POSIX
`path.normalize` processes the split segments left to right: empty and `"."`
segments are dropped, `".."` pops a previous real segment (or is kept, for a
relative path, when there is none to pop), any other segment is pushed.
The accumulator holds the kept segments in reverse order. -/
def normStack (isAbs : Bool) (stack : List Str) (seg : Str) : List Str :=
  if seg = [] ∨ seg = str "." then stack
  else if seg = str ".." then
    match stack with
    | [] => if isAbs then [] else [str ".."]
    | top :: rest => if top = str ".." then seg :: stack else rest
  else seg :: stack

/-- Modelled Node built-in: POSIX `path.normalize`. -/
def posixNormalize (p : Str) : Str :=
  let isAbs := p.head? = some '/'
  let hasTrail := p.getLast? = some '/' ∧ 1 < p.length
  let segs := ((splitOnChar '/' p).foldl (normStack isAbs) []).reverse
  let core := joinSlash segs
  let core := if isAbs then '/' :: core else core
  let core := if core = [] then ['.'] else core
  let core := if hasTrail ∧ core.getLast? ≠ some '/' then core ++ ['/'] else core
  core

/-- Modelled Node built-in: POSIX `path.join` on two arguments — the empty
arguments are dropped, the rest joined with `'/'`, and the result
normalized. -/
def pathJoin (a b : Str) : Str :=
  posixNormalize (if a = [] then b else if b = [] then a else a ++ '/' :: b)

/-- The string stored in `attachment.id` (empty when unset). -/
def idStr : Option Str → Str
  | none => []
  | some s => s

/-- `initAttachment` (source lines 108–123): when `attachment.id` is falsy,
generate a fresh 24-character base-36 identifier and, when the driver is
configured with `appendExtension` and the attachment has a truthy
`extension`, append `'.' + extension` to it; then always recompute
`path = path.join(documentId, id)` and `publicUrl`. -/
def initAttachment (drv : S3Driver) (entropy : List Nat) (a : Attachment) :
    Attachment :=
  let a :=
    if optTruthy a.id then a
    else
      let newId := randomBase36String 24 entropy
      let newId :=
        if drv.appendExtension && optTruthy a.extension then
          newId ++ '.' :: idStr a.extension
        else newId
      { a with id := some newId }
  let newPath := pathJoin a.documentId (idStr a.id)
  { a with
    path := newPath
    publicUrl :=
      if optTruthy drv.publicBaseUrl then some (idStr drv.publicBaseUrl ++ newPath)
      else none }

/-- The backend's object map: full storage key to object body (bytes). -/
abbrev S3Objects := List (Str × List Nat)

/-- A fault oracle for the modelled backend: for a given full key, `some
code` means the next request on that key fails with the generic backend
error `code` (timeout, auth failure, connectivity, ...); `none` means the
backend answers normally. -/
abbrev Faults := Str → Option Str

/-- The fault-free backend. -/
def noFaults : Faults := fun _ => none

/-- Lookup of an object body by full key. -/
def lookupObj : S3Objects → Str → Option (List Nat)
  | [], _ => none
  | (k, v) :: rest, key => if k = key then some v else lookupObj rest key

/-- Removing every entry at a full key. -/
def removeObj (st : S3Objects) (key : Str) : S3Objects :=
  st.filter (fun kv => kv.1 ≠ key)

/-- The full storage key of a logical key: the `S3k` client prepends the
configured prefix to every `Key` it is given. -/
def s3FullKey (cfg : S3Config) (key : Str) : Str := cfg.pfx ++ key

/-- Modelled `s3k-core` `getObject`: the body of the object at the key, a
typed `noSuchKey` error when the key holds no object, or the injected
backend fault. -/
def s3GetObject (cfg : S3Config) (faults : Faults) (st : S3Objects)
    (key : Str) : Except Err (List Nat) :=
  let fullKey := s3FullKey cfg key
  match faults fullKey with
  | some code => .error (.backend code)
  | none =>
    match lookupObj st fullKey with
    | some body => .ok body
    | none => .error (.noSuchKey fullKey)

/-- Modelled `s3k-core` `getObjectStream`: same addressing and failure
behaviour as `getObject`, delivering the body for incremental reading. -/
def s3GetObjectStream (cfg : S3Config) (faults : Faults) (st : S3Objects)
    (key : Str) : Except Err (List Nat) :=
  s3GetObject cfg faults st key

/-- Modelled `s3k-core` `putObject`: overwrite the object at the key. -/
def s3PutObject (cfg : S3Config) (faults : Faults) (st : S3Objects)
    (key : Str) (body : List Nat) : Except Err S3Objects :=
  let fullKey := s3FullKey cfg key
  match faults fullKey with
  | some code => .error (.backend code)
  | none => .ok ((fullKey, body) :: removeObj st fullKey)

/-- Modelled `s3k-core` `upload`: streaming upload — the chunks of the
readable are concatenated into the stored object body. -/
def s3Upload (cfg : S3Config) (faults : Faults) (st : S3Objects)
    (key : Str) (chunks : List (List Nat)) : Except Err S3Objects :=
  s3PutObject cfg faults st key chunks.flatten

/-- Modelled `s3k-core` `deleteObject`: S3's `DeleteObject` is idempotent —
deleting an absent key succeeds silently; only injected backend faults
fail. -/
def s3DeleteObject (cfg : S3Config) (faults : Faults) (st : S3Objects)
    (key : Str) : Except Err S3Objects :=
  let fullKey := s3FullKey cfg key
  match faults fullKey with
  | some code => .error (.backend code)
  | none => .ok (removeObj st fullKey)

/-- Modelled `s3k-core` `deleteDirectory`: remove every object whose full
key starts with the prefixed directory path.  Succeeds (as a no-op) when
nothing matches. -/
def s3DeleteDirectory (cfg : S3Config) (st : S3Objects) (dir : Str) :
    S3Objects :=
  st.filter (fun kv => !(s3FullKey cfg dir).isPrefixOf kv.1)

/-- `load` (source lines 127–132): fetch the object at `attachment.path`
and return its body; no error handling of its own — backend outcomes pass
through unchanged. -/
def driverLoad (cfg : S3Config) (faults : Faults) (st : S3Objects)
    (a : Attachment) : Except Err (List Nat) :=
  s3GetObject cfg faults st a.path

/-- `getReadStream` (source lines 136–138): stream the object at
`attachment.path`; backend outcomes pass through unchanged. -/
def driverGetReadStream (cfg : S3Config) (faults : Faults) (st : S3Objects)
    (a : Attachment) : Except Err (List Nat) :=
  s3GetObjectStream cfg faults st a.path

/-- `saveContent` (source lines 156–159): direct put of a string or buffer
payload.  A JS string body is stored as its character codes. -/
def driverSaveContent (cfg : S3Config) (faults : Faults) (st : S3Objects)
    (a : Attachment) : Except Err S3Objects :=
  match a.incoming with
  | .str s => s3PutObject cfg faults st a.path (s.map Char.toNat)
  | .buffer b => s3PutObject cfg faults st a.path b
  | .readable chunks => s3PutObject cfg faults st a.path chunks.flatten
  | .other => s3PutObject cfg faults st a.path []

/-- `saveStream` (source lines 163–166): streaming upload of a readable
payload. -/
def driverSaveStream (cfg : S3Config) (faults : Faults) (st : S3Objects)
    (a : Attachment) : Except Err S3Objects :=
  match a.incoming with
  | .readable chunks => s3Upload cfg faults st a.path chunks
  | _ => s3Upload cfg faults st a.path []

/-- `save` (source lines 142–152): dispatch on the payload's runtime shape —
a string or a `Buffer` goes to `saveContent`, a readable stream to
`saveStream`, anything else throws the unsupported-payload error. -/
def driverSave (cfg : S3Config) (faults : Faults) (st : S3Objects)
    (a : Attachment) : Except Err S3Objects :=
  match a.incoming with
  | .str _ => driverSaveContent cfg faults st a
  | .buffer _ => driverSaveContent cfg faults st a
  | .readable _ => driverSaveStream cfg faults st a
  | .other => .error .unsupportedPayload

/-- `delete` (source lines 170–173): delete the object at
`attachment.path`; no error handling of its own — the backend's idempotent
delete passes through unchanged. -/
def driverDelete (cfg : S3Config) (faults : Faults) (st : S3Objects)
    (a : Attachment) : Except Err S3Objects :=
  s3DeleteObject cfg faults st a.path

/-- `deleteAllInDocument` (source lines 178–184): delete the directory
`documentId + '/'` (the guard `if (!dirPath) return` can never fire, since
`documentId + '/'` is never the empty string, but is kept faithfully). -/
def driverDeleteAllInDocument (cfg : S3Config) (st : S3Objects)
    (documentId : Str) : S3Objects :=
  let dirPath := documentId ++ ['/']
  if dirPath.isEmpty then st
  else s3DeleteDirectory cfg st dirPath

/-- `clear` (source lines 189–192): delete everything under the
collection's configured prefix. -/
def driverClear (cfg : S3Config) (st : S3Objects) : S3Objects :=
  s3DeleteDirectory cfg st []

/-- The driver record a successful construction produces for a collection
and its parsed bucket/prefix. -/
def mkDriver (c : Collection) (bucket pfx : Str) : S3Driver :=
  { collectionUrl := c.url
    appendExtension := c.attachmentAppendExtension
    publicBaseUrl := c.attachmentPublicBaseUrl
    s3 :=
      { endpoint := c.hostname
        accessKeyId := c.username
        secretAccessKey := c.password
        bucket := bucket
        pfx := pfx } }

/-- A plain path segment: non-empty, free of separators, and not one of the
special dot segments that `path.join` normalizes away. -/
def plainSeg (s : Str) : Prop :=
  s ≠ [] ∧ '/' ∉ s ∧ s ≠ str "." ∧ s ≠ str ".."

instance (s : Str) : Decidable (plainSeg s) := by
  unfold plainSeg
  infer_instance

/-- Discriminator mirroring `Buffer.isBuffer`. -/
def isBuffer : Incoming → Bool
  | .buffer _ => true
  | _ => false

/-- Discriminator mirroring `instanceof stream.Readable`. -/
def isReadable : Incoming → Bool
  | .readable _ => true
  | _ => false

/-- Concrete client configuration used by witnesses. -/
def cfg0 : S3Config :=
  { endpoint := str "s3.example.com"
    accessKeyId := str "AK"
    secretAccessKey := str "SK"
    bucket := str "bkt"
    pfx := str "pre/" }

/-- A concrete collection configuration. -/
def colA : Collection :=
  { url := str "mongodb://localhost:27017/rootsDb-s3/users"
    pathname := str "/bkt/users-attachments"
    hostname := str "s3.example.com"
    username := str "AK"
    password := str "SK"
    attachmentAppendExtension := false
    attachmentPublicBaseUrl := none }

/-- A different collection claiming the same backend address as `colA`. -/
def colB : Collection :=
  { colA with url := str "mongodb://localhost:27017/rootsDb-s3/archive" }

/-- A collection under the same bucket as `colA` with a distinct prefix. -/
def colC : Collection :=
  { colA with
    url := str "mongodb://localhost:27017/rootsDb-s3/jobs"
    pathname := str "/bkt/jobs-attachments" }

/-- A collection whose backend path has a single non-empty segment. -/
def colBad : Collection := { colA with pathname := str "/bkt" }

/-- The driver built from `colA`. -/
def drvA : S3Driver := mkDriver colA (str "bkt") (str "users-attachments/")

/-- The same driver configured to append extensions. -/
def drvExt : S3Driver := { drvA with appendExtension := true }

/-- A concrete entropy source of 24 values. -/
def entropy0 : List Nat := List.range 24

/-- A fresh attachment: no id yet, with an extension. -/
def attNew : Attachment :=
  { id := none, extension := some (str "txt"), documentId := str "doc1",
    path := [], publicUrl := none, incoming := .other }

/-- An already-initialized attachment. -/
def attDone : Attachment :=
  { id := some (str "abc123"), extension := none, documentId := str "doc1",
    path := str "doc1/abc123", publicUrl := none, incoming := .other }

/-- The same attachment with a string payload. -/
def attStr0 : Attachment :=
  { attDone with incoming := .str (str "grigrigredin menufretin") }

/-- The same attachment with a buffer payload. -/
def attBuf : Attachment := { attDone with incoming := .buffer [1, 2, 3] }

/-- An attachment with a multi-chunk streaming payload. -/
def attStream : Attachment :=
  { attDone with
    path := str "doc1/stream1"
    incoming := .readable [[1, 2], [3, 4, 5]] }

/-- A backend holding one object under each of two documents. -/
def stDocs : S3Objects := [(str "pre/doc1/a", [1]), (str "pre/doc2/b", [2])]

theorem splitOnChar_cons (c x : Char) (xs : Str) :
    splitOnChar c (x :: xs) =
      match splitOnChar c xs with
      | [] => [[]]
      | seg :: rest => if x = c then [] :: seg :: rest else (x :: seg) :: rest := rfl

theorem joinSlash_single (s : Str) : joinSlash [s] = s := rfl

theorem joinSlash_cons₂ (s t : Str) (ts : List Str) :
    joinSlash (s :: t :: ts) = s ++ '/' :: joinSlash (t :: ts) := rfl

theorem splitOnChar_ne_nil (c : Char) (p : Str) : splitOnChar c p ≠ [] := by
  cases p with
  | nil => simp [splitOnChar]
  | cons x xs =>
    rw [splitOnChar_cons]
    cases h : splitOnChar c xs with
    | nil => simp
    | cons seg rest => by_cases hx : x = c <;> simp [hx]

theorem splitOnChar_not_mem (c : Char) (p : Str) :
    ∀ s ∈ splitOnChar c p, c ∉ s := by
  induction p with
  | nil =>
    intro s hs
    simp [splitOnChar] at hs
    simp [hs]
  | cons x xs ih =>
    intro s hs
    rw [splitOnChar_cons] at hs
    cases h : splitOnChar c xs with
    | nil => exact absurd h (splitOnChar_ne_nil c xs)
    | cons seg rest =>
      rw [h] at hs
      by_cases hx : x = c
      · simp only [hx, if_pos rfl] at hs
        rcases List.mem_cons.mp hs with rfl | hs'
        · simp
        · exact ih s (h ▸ hs')
      · simp only [if_neg hx] at hs
        rcases List.mem_cons.mp hs with rfl | hs'
        · intro hc
          rcases List.mem_cons.mp hc with rfl | hc'
          · exact hx rfl
          · exact ih seg (h ▸ List.mem_cons_self seg rest) hc'
        · exact ih s (h ▸ List.mem_cons_of_mem seg hs')

theorem splitOnChar_no_sep (c : Char) (p : Str) (h : c ∉ p) :
    splitOnChar c p = [p] := by
  induction p with
  | nil => simp [splitOnChar]
  | cons x xs ih =>
    have hx : ¬ x = c := fun hh => h (by rw [hh]; exact List.mem_cons_self c xs)
    rw [splitOnChar_cons, ih (fun hh => h (List.mem_cons_of_mem x hh))]
    simp [hx]

theorem splitOnChar_append (a b : Str) (ha : '/' ∉ a) :
    splitOnChar '/' (a ++ '/' :: b) = a :: splitOnChar '/' b := by
  induction a with
  | nil =>
    simp only [List.nil_append, splitOnChar_cons]
    cases h : splitOnChar '/' b with
    | nil => exact absurd h (splitOnChar_ne_nil _ _)
    | cons seg rest => simp
  | cons x xs ih =>
    have hx : ¬ x = '/' := fun hh => ha (by rw [← hh]; exact List.mem_cons_self x xs)
    have ha' : '/' ∉ xs := fun hh => ha (List.mem_cons_of_mem x hh)
    simp only [List.cons_append, splitOnChar_cons]
    rw [ih ha']
    simp [hx]

theorem joinSlash_ne_nil (l : List Str) (h0 : l ≠ [])
    (h : ∀ s ∈ l, s ≠ []) : joinSlash l ≠ [] := by
  cases l with
  | nil => exact absurd rfl h0
  | cons s rest =>
    cases rest with
    | nil => simpa [joinSlash_single] using h s (List.mem_cons_self s [])
    | cons t ts => simp [joinSlash_cons₂]

theorem joinSlash_getLast_ne_slash (l : List Str) (h0 : l ≠ [])
    (h : ∀ s ∈ l, s ≠ [] ∧ '/' ∉ s) : (joinSlash l).getLast? ≠ some '/' := by
  induction l with
  | nil => exact absurd rfl h0
  | cons s rest ih =>
    cases rest with
    | nil =>
      obtain ⟨hs0, hs1⟩ := h s (List.mem_cons_self _ _)
      rw [joinSlash_single, List.getLast?_eq_getLast s hs0]
      intro hc
      exact hs1 (Option.some.inj hc ▸ List.getLast_mem hs0)
    | cons t ts =>
      have hmem : ∀ x ∈ t :: ts, x ≠ [] ∧ '/' ∉ x :=
        fun x hx => h x (List.mem_cons_of_mem _ hx)
      have hrest : (joinSlash (t :: ts)).getLast? ≠ some '/' :=
        ih (by simp) hmem
      have hne : joinSlash (t :: ts) ≠ [] :=
        joinSlash_ne_nil _ (by simp) (fun x hx => (hmem x hx).1)
      rw [joinSlash_cons₂, List.getLast?_append_of_ne_nil s (by simp)]
      cases hX : joinSlash (t :: ts) with
      | nil => exact absurd hX hne
      | cons y ys =>
        rw [List.getLast?_cons_cons]
        rw [hX] at hrest
        exact hrest

theorem parseBucketPrefix_eq_err0 (pathname : Str)
    (hp : (splitOnChar '/' pathname).filter (fun part => part.length != 0) = []) :
    parseBucketPrefix pathname = .error .missingBucketPrefix := by
  unfold parseBucketPrefix
  rw [hp]

theorem parseBucketPrefix_eq_err1 (pathname b : Str)
    (hp : (splitOnChar '/' pathname).filter (fun part => part.length != 0) = [b]) :
    parseBucketPrefix pathname = .error .missingBucketPrefix := by
  unfold parseBucketPrefix
  rw [hp]

theorem parseBucketPrefix_eq_ok (pathname bucket r : Str) (rs : List Str)
    (hp : (splitOnChar '/' pathname).filter (fun part => part.length != 0)
            = bucket :: r :: rs) :
    parseBucketPrefix pathname =
      .ok (bucket,
        if (joinSlash (r :: rs)).getLast? != some '/'
        then joinSlash (r :: rs) ++ ['/'] else joinSlash (r :: rs)) := by
  unfold parseBucketPrefix
  rw [hp]

theorem filter_parts_plain (pathname : Str) :
    ∀ s ∈ (splitOnChar '/' pathname).filter (fun part => part.length != 0),
      s ≠ [] ∧ '/' ∉ s := by
  intro s hs
  obtain ⟨hsplit, hlen⟩ := List.mem_filter.mp hs
  refine ⟨?_, splitOnChar_not_mem '/' pathname s hsplit⟩
  intro hnil
  simp [hnil] at hlen

/-- C6: store construction splits the configured backend path on `'/'`,
drops the empty segments, and fails with the configuration error exactly
when fewer than two non-empty segments remain; otherwise the first segment
is the bucket and the remaining segments rejoined with `'/'` are the
prefix, which ends with exactly one trailing separator. -/
theorem parseBucketPrefix_spec (pathname : Str) :
    ((parseBucketPrefix pathname = .error .missingBucketPrefix) ↔
      ((splitOnChar '/' pathname).filter (fun part => part.length != 0)).length < 2)
    ∧ (∀ bucket rest,
        (splitOnChar '/' pathname).filter (fun part => part.length != 0)
          = bucket :: rest →
        rest ≠ [] →
        parseBucketPrefix pathname = .ok (bucket, joinSlash rest ++ ['/'])
        ∧ (joinSlash rest ++ ['/']).getLast? = some '/'
        ∧ (joinSlash rest ++ ['/']).dropLast.getLast? ≠ some '/') := by
  constructor
  · constructor
    · intro herr
      by_contra hlen
      push_neg at hlen
      rcases hp : (splitOnChar '/' pathname).filter (fun part => part.length != 0) with
        _ | ⟨b, _ | ⟨r, rs⟩⟩
      · simp [hp] at hlen
      · simp [hp] at hlen
      · rw [parseBucketPrefix_eq_ok pathname b r rs hp] at herr
        exact absurd herr (by simp)
    · intro hlen
      rcases hp : (splitOnChar '/' pathname).filter (fun part => part.length != 0) with
        _ | ⟨b, _ | ⟨r, rs⟩⟩
      · exact parseBucketPrefix_eq_err0 pathname hp
      · exact parseBucketPrefix_eq_err1 pathname b hp
      · rw [hp] at hlen
        simp at hlen
        omega
  · intro bucket rest heq hne
    cases rest with
    | nil => exact absurd rfl hne
    | cons r rs =>
      have hmem : ∀ s ∈ r :: rs, s ≠ [] ∧ '/' ∉ s := by
        intro s hs
        exact filter_parts_plain pathname s
          (heq ▸ List.mem_cons_of_mem bucket hs)
      have hlast : (joinSlash (r :: rs)).getLast? ≠ some '/' :=
        joinSlash_getLast_ne_slash (r :: rs) (by simp) hmem
      have hcond : ((joinSlash (r :: rs)).getLast? != some '/') = true := by
        simpa using hlast
      refine ⟨?_, ?_, ?_⟩
      · rw [parseBucketPrefix_eq_ok pathname bucket r rs heq, hcond]
        simp
      · exact List.getLast?_concat _
      · rw [List.dropLast_concat]
        exact hlast

theorem s3AttachmentDriver_eq_err (reg : Registry) (c : Collection) (e : Err)
    (hp : parseBucketPrefix c.pathname = .error e) :
    s3AttachmentDriver reg c = (.error e, reg) := by
  unfold s3AttachmentDriver
  rw [hp]

theorem s3AttachmentDriver_none (reg : Registry) (c : Collection)
    (bucket pfx : Str)
    (hp : parseBucketPrefix c.pathname = .ok (bucket, pfx))
    (hn : lookupReg reg (mkFullEndpoint c.hostname bucket pfx) = none) :
    s3AttachmentDriver reg c =
      (.ok (mkDriver c bucket pfx),
       (mkFullEndpoint c.hostname bucket pfx, c.url) :: reg) := by
  simp only [s3AttachmentDriver]
  rw [hp]
  simp only [hn]
  rfl

theorem s3AttachmentDriver_same (reg : Registry) (c : Collection)
    (bucket pfx : Str)
    (hp : parseBucketPrefix c.pathname = .ok (bucket, pfx))
    (hs : lookupReg reg (mkFullEndpoint c.hostname bucket pfx) = some c.url) :
    s3AttachmentDriver reg c = (.ok (mkDriver c bucket pfx), reg) := by
  simp only [s3AttachmentDriver]
  rw [hp]
  simp only [hs, if_pos rfl]
  rfl

theorem s3AttachmentDriver_conflict (reg : Registry) (c : Collection)
    (bucket pfx u : Str)
    (hp : parseBucketPrefix c.pathname = .ok (bucket, pfx))
    (hs : lookupReg reg (mkFullEndpoint c.hostname bucket pfx) = some u)
    (hu : u ≠ c.url) :
    s3AttachmentDriver reg c =
      (.error (.storageEndpointSharing (mkFullEndpoint c.hostname bucket pfx)
                u c.url), reg) := by
  simp only [s3AttachmentDriver]
  rw [hp]
  simp only [hs, if_neg hu]

theorem mkFullEndpoint_pfx_inj (e b p1 p2 : Str)
    (h : mkFullEndpoint e b p1 = mkFullEndpoint e b p2) : p1 = p2 := by
  simpa [mkFullEndpoint] using h

/-- C1: the first construction claiming a given (endpoint, bucket, prefix)
address records that collection's URL in the process-wide registry; a later
construction claiming the same address succeeds silently when its
collection URL equals the recorded one, and fails with the
`storageEndpointSharing` configuration error — surfacing the address, the
recorded URL, and the conflicting URL — when it differs; constructions with
distinct prefixes under the same bucket both succeed. -/
theorem s3AttachmentDriver_registry_spec (reg : Registry) (c : Collection)
    (bucket pfx : Str)
    (hp : parseBucketPrefix c.pathname = .ok (bucket, pfx)) :
    (lookupReg reg (mkFullEndpoint c.hostname bucket pfx) = none →
      s3AttachmentDriver reg c =
        (.ok (mkDriver c bucket pfx),
         (mkFullEndpoint c.hostname bucket pfx, c.url) :: reg)
      ∧ lookupReg (s3AttachmentDriver reg c).2
          (mkFullEndpoint c.hostname bucket pfx) = some c.url)
    ∧ (lookupReg reg (mkFullEndpoint c.hostname bucket pfx) = some c.url →
      s3AttachmentDriver reg c = (.ok (mkDriver c bucket pfx), reg))
    ∧ (∀ u, lookupReg reg (mkFullEndpoint c.hostname bucket pfx) = some u →
      u ≠ c.url →
      s3AttachmentDriver reg c =
        (.error (.storageEndpointSharing (mkFullEndpoint c.hostname bucket pfx)
                  u c.url), reg))
    ∧ (∀ c2 pfx2, parseBucketPrefix c2.pathname = .ok (bucket, pfx2) →
      c2.hostname = c.hostname → pfx2 ≠ pfx →
      lookupReg reg (mkFullEndpoint c.hostname bucket pfx) = none →
      lookupReg reg (mkFullEndpoint c.hostname bucket pfx2) = none →
      (s3AttachmentDriver (s3AttachmentDriver reg c).2 c2).1
        = .ok (mkDriver c2 bucket pfx2)) := by
  refine ⟨?_, ?_, ?_, ?_⟩
  · intro hn
    have heq := s3AttachmentDriver_none reg c bucket pfx hp hn
    refine ⟨heq, ?_⟩
    rw [heq]
    simp [lookupReg]
  · intro hs
    exact s3AttachmentDriver_same reg c bucket pfx hp hs
  · intro u hs hu
    exact s3AttachmentDriver_conflict reg c bucket pfx u hp hs hu
  · intro c2 pfx2 hp2 hh hpfx hn hn2
    have heq := s3AttachmentDriver_none reg c bucket pfx hp hn
    rw [heq]
    have haddr : mkFullEndpoint c2.hostname bucket pfx2
        = mkFullEndpoint c.hostname bucket pfx2 := by rw [hh]
    have hne : mkFullEndpoint c.hostname bucket pfx
        ≠ mkFullEndpoint c2.hostname bucket pfx2 := by
      rw [haddr]
      intro hcontra
      exact hpfx (mkFullEndpoint_pfx_inj _ _ _ _ hcontra.symm)
    have hn2' : lookupReg
        ((mkFullEndpoint c.hostname bucket pfx, c.url) :: reg)
        (mkFullEndpoint c2.hostname bucket pfx2) = none := by
      simp only [lookupReg, if_neg hne]
      rw [haddr]
      exact hn2
    rw [s3AttachmentDriver_none _ c2 bucket pfx2 hp2 hn2']

/-- C10: whenever store construction fails — malformed backend path or an
endpoint-sharing conflict with a different collection — the process-wide
endpoint registry is left exactly as it was: the failed construction adds,
removes and modifies no entry. -/
theorem s3AttachmentDriver_error_preserves_registry (reg : Registry)
    (c : Collection) (e : Err)
    (h : (s3AttachmentDriver reg c).1 = .error e) :
    (s3AttachmentDriver reg c).2 = reg := by
  cases hp : parseBucketPrefix c.pathname with
  | error e' => rw [s3AttachmentDriver_eq_err reg c e' hp]
  | ok bp =>
    obtain ⟨bucket, pfx⟩ := bp
    cases hl : lookupReg reg (mkFullEndpoint c.hostname bucket pfx) with
    | none =>
      rw [s3AttachmentDriver_none reg c bucket pfx hp hl] at h
      exact absurd h (by simp)
    | some u =>
      by_cases hu : u = c.url
      · rw [s3AttachmentDriver_same reg c bucket pfx hp (hu ▸ hl)]
      · rw [s3AttachmentDriver_conflict reg c bucket pfx u hp hl hu]

theorem pathJoin_plain (a b : Str) (ha : plainSeg a) (hb : plainSeg b) :
    pathJoin a b = a ++ '/' :: b := by
  obtain ⟨ha0, ha1, ha2, ha3⟩ := ha
  obtain ⟨hb0, hb1, hb2, hb3⟩ := hb
  have hsplit : splitOnChar '/' (a ++ '/' :: b) = [a, b] := by
    rw [splitOnChar_append a b ha1, splitOnChar_no_sep '/' b hb1]
  have hhead : ¬ ((a ++ '/' :: b).head? = some '/') := by
    cases a with
    | nil => exact absurd rfl ha0
    | cons x xs =>
      simp only [List.cons_append, List.head?_cons]
      intro hc
      have hx : x = '/' := Option.some.inj hc
      subst hx
      exact ha1 (List.mem_cons_self _ _)
  have hlast : ¬ ((a ++ '/' :: b).getLast? = some '/') := by
    rw [List.getLast?_append_of_ne_nil a (by simp)]
    cases b with
    | nil => exact absurd rfl hb0
    | cons y ys =>
      rw [List.getLast?_cons_cons,
        List.getLast?_eq_getLast (y :: ys) (by simp)]
      intro hc
      exact hb1 (Option.some.inj hc ▸ List.getLast_mem (by simp))
  have hstep1 : ∀ bf : Bool, normStack bf [] a = [a] := by
    intro bf; simp [normStack, ha0, ha2, ha3]
  have hstep2 : ∀ bf : Bool, normStack bf [a] b = [b, a] := by
    intro bf; simp [normStack, hb0, hb2, hb3]
  unfold pathJoin
  rw [if_neg ha0, if_neg hb0]
  simp only [posixNormalize, hsplit, List.foldl_cons, List.foldl_nil]
  rw [hstep1, hstep2]
  simp only [List.reverse_cons, List.reverse_nil, List.nil_append,
    List.cons_append, List.append_nil]
  rw [joinSlash_cons₂, joinSlash_single]
  rw [if_neg hhead]
  rw [if_neg (show ¬ (a ++ '/' :: b = []) by simp)]
  rw [if_neg (fun hcontra => hlast hcontra.1.1)]

theorem initAttachment_documentId (drv : S3Driver) (entropy : List Nat)
    (a : Attachment) :
    (initAttachment drv entropy a).documentId = a.documentId := by
  unfold initAttachment
  cases h : optTruthy a.id <;> simp [h]

theorem initAttachment_path_eq (drv : S3Driver) (entropy : List Nat)
    (a : Attachment) :
    (initAttachment drv entropy a).path =
      pathJoin a.documentId (idStr (initAttachment drv entropy a).id) := by
  unfold initAttachment
  cases h : optTruthy a.id <;> simp [h]

theorem randomBase36String_length (n : Nat) (entropy : List Nat) :
    (randomBase36String n entropy).length = n := by
  simp [randomBase36String]

theorem randomBase36String_mem (n : Nat) (entropy : List Nat) :
    ∀ c ∈ randomBase36String n entropy, c ∈ base36Alphabet := by
  intro c hc
  simp only [randomBase36String, List.mem_map, List.mem_range] at hc
  obtain ⟨i, _, rfl⟩ := hc
  have h36 : (entropy.getD i 0) % 36 < base36Alphabet.length := by
    have hlen : base36Alphabet.length = 36 := by decide
    rw [hlen]
    exact Nat.mod_lt _ (by norm_num)
  rw [List.getD_eq_getElem _ _ h36]
  exact List.getElem_mem h36

/-- C2 (amended): for an attachment with no prior `id`, `initAttachment`
generates a 24-character identifier over the base-36 alphabet and assigns
it — suffixed with `'.' + extension` exactly when the driver is configured
with `appendExtension` and the attachment carries a non-empty extension;
for an attachment whose `id` is already set, the `id` is left unchanged. -/
theorem initAttachment_id_spec (drv : S3Driver) (entropy : List Nat)
    (a : Attachment) :
    (optTruthy a.id = false →
      (initAttachment drv entropy a).id = some
        (if drv.appendExtension && optTruthy a.extension then
           randomBase36String 24 entropy ++ '.' :: idStr a.extension
         else randomBase36String 24 entropy)
      ∧ (randomBase36String 24 entropy).length = 24
      ∧ ∀ c ∈ randomBase36String 24 entropy, c ∈ base36Alphabet)
    ∧ (optTruthy a.id = true → (initAttachment drv entropy a).id = a.id) := by
  constructor
  · intro h
    refine ⟨?_, randomBase36String_length 24 entropy,
      randomBase36String_mem 24 entropy⟩
    unfold initAttachment
    simp only [h, Bool.false_eq_true, if_neg (by simp : ¬ (false = true))]
    cases hext : drv.appendExtension && optTruthy a.extension <;> simp [hext]
  · intro h
    unfold initAttachment
    simp [h]

/-- C3: after every call to `initAttachment` — no matter how many times it
has already run on the attachment — `path` equals `documentId ++ "/" ++ id`,
a forward-slash-joined concatenation that never involves the configured
backend prefix (the equation holds for every driver configuration alike).
The hypotheses state that the document id and the (possibly just
generated) attachment id are plain path segments. -/
theorem initAttachment_path_spec (drv : S3Driver) (entropy : List Nat)
    (a : Attachment)
    (hdoc : plainSeg a.documentId)
    (hid : plainSeg (idStr (initAttachment drv entropy a).id)) :
    (initAttachment drv entropy a).path =
      a.documentId ++ '/' :: idStr (initAttachment drv entropy a).id := by
  rw [initAttachment_path_eq]
  exact pathJoin_plain _ _ hdoc hid

theorem removeObj_of_lookup_none (st : S3Objects) (k : Str)
    (h : lookupObj st k = none) : removeObj st k = st := by
  induction st with
  | nil => rfl
  | cons kv rest ih =>
    obtain ⟨k', v'⟩ := kv
    by_cases hk : k' = k
    · simp only [lookupObj, if_pos hk] at h
      cases h
    · simp only [lookupObj, if_neg hk] at h
      simp only [removeObj, List.filter_cons]
      rw [removeObj] at ih
      rw [if_pos (by simp [hk] : (decide (k' ≠ k)) = true), ih h]

theorem s3PutObject_ne_unsupported (cfg : S3Config) (faults : Faults)
    (st : S3Objects) (key : Str) (body : List Nat) :
    s3PutObject cfg faults st key body ≠ .error .unsupportedPayload := by
  simp only [s3PutObject]
  cases hf : faults (s3FullKey cfg key) <;> simp

theorem driverSaveContent_ne_unsupported (cfg : S3Config) (faults : Faults)
    (st : S3Objects) (a : Attachment) :
    driverSaveContent cfg faults st a ≠ .error .unsupportedPayload := by
  unfold driverSaveContent
  cases hi : a.incoming <;> exact s3PutObject_ne_unsupported _ _ _ _ _

theorem driverSaveStream_ne_unsupported (cfg : S3Config) (faults : Faults)
    (st : S3Objects) (a : Attachment) :
    driverSaveStream cfg faults st a ≠ .error .unsupportedPayload := by
  unfold driverSaveStream
  cases hi : a.incoming <;> exact s3PutObject_ne_unsupported _ _ _ _ _

/-- C4 (amended): on an attachment whose `path` holds no object, `load` and
`getReadStream` fail with the typed missing-object error (distinct from the
generic backend-error constructor), while `delete` succeeds silently as a
no-op — the backend's idempotent delete passes through; any generic
backend error is propagated unchanged by all three operations. -/
theorem driver_missing_object_spec (cfg : S3Config) (faults : Faults)
    (st : S3Objects) (a : Attachment) :
    (faults (s3FullKey cfg a.path) = none →
      lookupObj st (s3FullKey cfg a.path) = none →
      driverLoad cfg faults st a = .error (.noSuchKey (s3FullKey cfg a.path))
      ∧ driverGetReadStream cfg faults st a
          = .error (.noSuchKey (s3FullKey cfg a.path))
      ∧ driverDelete cfg faults st a = .ok st)
    ∧ (∀ code, faults (s3FullKey cfg a.path) = some code →
      driverLoad cfg faults st a = .error (.backend code)
      ∧ driverGetReadStream cfg faults st a = .error (.backend code)
      ∧ driverDelete cfg faults st a = .error (.backend code)) := by
  constructor
  · intro hf hl
    refine ⟨?_, ?_, ?_⟩ <;>
      simp [driverLoad, driverGetReadStream, driverDelete, s3GetObject,
        s3GetObjectStream, s3DeleteObject, hf, hl,
        removeObj_of_lookup_none st _ hl]
  · intro code hf
    refine ⟨?_, ?_, ?_⟩ <;>
      simp [driverLoad, driverGetReadStream, driverDelete, s3GetObject,
        s3GetObjectStream, s3DeleteObject, hf]

/-- C5 (amended): `save` fails with the unsupported-payload error exactly
when `incoming` is neither a string, nor a buffer, nor a readable stream;
strings and buffers are dispatched to the direct put (`saveContent`) and
readable streams to the streaming upload (`saveStream`). -/
theorem driverSave_dispatch_spec (cfg : S3Config) (faults : Faults)
    (st : S3Objects) (a : Attachment) :
    (driverSave cfg faults st a = .error .unsupportedPayload
      ↔ a.incoming = .other)
    ∧ (∀ s, a.incoming = .str s →
        driverSave cfg faults st a = driverSaveContent cfg faults st a)
    ∧ (∀ b, a.incoming = .buffer b →
        driverSave cfg faults st a = driverSaveContent cfg faults st a)
    ∧ (∀ ch, a.incoming = .readable ch →
        driverSave cfg faults st a = driverSaveStream cfg faults st a) := by
  refine ⟨⟨?_, ?_⟩, ?_, ?_, ?_⟩
  · intro h
    cases hi : a.incoming with
    | str s =>
      have hd : driverSave cfg faults st a = driverSaveContent cfg faults st a := by
        unfold driverSave; rw [hi]
      rw [hd] at h
      exact absurd h (driverSaveContent_ne_unsupported _ _ _ _)
    | buffer b =>
      have hd : driverSave cfg faults st a = driverSaveContent cfg faults st a := by
        unfold driverSave; rw [hi]
      rw [hd] at h
      exact absurd h (driverSaveContent_ne_unsupported _ _ _ _)
    | readable ch =>
      have hd : driverSave cfg faults st a = driverSaveStream cfg faults st a := by
        unfold driverSave; rw [hi]
      rw [hd] at h
      exact absurd h (driverSaveStream_ne_unsupported _ _ _ _)
    | other => rfl
  · intro h
    unfold driverSave
    rw [h]
  · intro s hs
    unfold driverSave
    rw [hs]
  · intro b hb
    unfold driverSave
    rw [hb]
  · intro ch hc
    unfold driverSave
    rw [hc]

/-- C9: a JavaScript string payload is accepted by `save` — it is
dispatched to the direct-put path (`saveContent`), the same branch a buffer
takes, and never raises the unsupported-payload error. -/
theorem driverSave_string_spec (cfg : S3Config) (faults : Faults)
    (st : S3Objects) (a : Attachment) (s : Str)
    (h : a.incoming = .str s) :
    driverSave cfg faults st a = driverSaveContent cfg faults st a
    ∧ driverSave cfg faults st a ≠ .error .unsupportedPayload := by
  have hd : driverSave cfg faults st a = driverSaveContent cfg faults st a := by
    unfold driverSave; rw [h]
  exact ⟨hd, by rw [hd]; exact driverSaveContent_ne_unsupported _ _ _ _⟩

theorem lookupObj_put (st : S3Objects) (k : Str) (b : List Nat) :
    lookupObj ((k, b) :: st) k = some b := by
  simp [lookupObj]

/-- C7: saving byte content `C` — as a buffer payload, or as a streaming
payload whose chunks concatenate to `C` (any chunking, including several
chunks) — and then loading the same attachment yields exactly `C`,
provided the backend raises no transport fault on that key. -/
theorem save_load_roundtrip (cfg : S3Config) (faults : Faults)
    (st : S3Objects) (a : Attachment) (C : List Nat)
    (hf : faults (s3FullKey cfg a.path) = none) :
    (a.incoming = .buffer C →
      ∃ st2, driverSave cfg faults st a = .ok st2
        ∧ driverLoad cfg faults st2 a = .ok C)
    ∧ (∀ chunks, a.incoming = .readable chunks → chunks.flatten = C →
      ∃ st2, driverSave cfg faults st a = .ok st2
        ∧ driverLoad cfg faults st2 a = .ok C) := by
  constructor
  · intro hi
    refine ⟨(s3FullKey cfg a.path, C) :: removeObj st (s3FullKey cfg a.path),
      ?_, ?_⟩
    · have hd : driverSave cfg faults st a = driverSaveContent cfg faults st a := by
        unfold driverSave; rw [hi]
      rw [hd]
      unfold driverSaveContent
      rw [hi]
      simp only [s3PutObject, hf]
    · simp only [driverLoad, s3GetObject, hf, lookupObj_put]
  · intro chunks hi hC
    refine ⟨(s3FullKey cfg a.path, C) :: removeObj st (s3FullKey cfg a.path),
      ?_, ?_⟩
    · have hd : driverSave cfg faults st a = driverSaveStream cfg faults st a := by
        unfold driverSave; rw [hi]
      rw [hd]
      unfold driverSaveStream
      rw [hi]
      show s3PutObject cfg faults st a.path chunks.flatten
        = Except.ok ((s3FullKey cfg a.path, C) :: removeObj st (s3FullKey cfg a.path))
      rw [hC]
      simp only [s3PutObject, hf]
    · simp only [driverLoad, s3GetObject, hf, lookupObj_put]

theorem isPrefixOf_append_cancel (a b c : Str) :
    (a ++ b).isPrefixOf (a ++ c) = b.isPrefixOf c := by
  induction a with
  | nil => rfl
  | cons x xs ih => simp [List.isPrefixOf, ih]

theorem seg_slash_determines (t : Str) :
    ∀ d d2 : Str, '/' ∉ d → '/' ∉ d2 →
    (d ++ ['/']).isPrefixOf (d2 ++ '/' :: t) = true → d = d2 := by
  intro d
  induction d with
  | nil =>
    intro d2 _ hd2 h
    cases d2 with
    | nil => rfl
    | cons y ys =>
      exfalso
      simp only [List.nil_append, List.cons_append, List.isPrefixOf,
        Bool.and_eq_true, beq_iff_eq] at h
      exact hd2 (by rw [h.1]; exact List.mem_cons_self y ys)
  | cons x xs ih =>
    intro d2 hd hd2 h
    cases d2 with
    | nil =>
      exfalso
      simp only [List.cons_append, List.nil_append, List.isPrefixOf,
        Bool.and_eq_true, beq_iff_eq] at h
      exact hd (by rw [h.1]; exact List.mem_cons_self _ _)
    | cons y ys =>
      simp only [List.cons_append, List.isPrefixOf, Bool.and_eq_true,
        beq_iff_eq] at h
      obtain ⟨hxy, hrest⟩ := h
      have hd' : '/' ∉ xs := fun hm => hd (List.mem_cons_of_mem _ hm)
      have hd2' : '/' ∉ ys := fun hm => hd2 (List.mem_cons_of_mem _ hm)
      rw [hxy, ih ys hd' hd2' hrest]

theorem driverDeleteAllInDocument_eq (cfg : S3Config) (st : S3Objects)
    (d : Str) :
    driverDeleteAllInDocument cfg st d
      = s3DeleteDirectory cfg st (d ++ ['/']) := by
  unfold driverDeleteAllInDocument
  rw [if_neg (by simp : ¬ ((d ++ ['/']).isEmpty = true))]

/-- C8: `deleteAllInDocument d` removes exactly the backend objects whose
key is prefixed by the (client-prefixed) `d ++ "/"`; every object filed
under another document identifier survives unchanged, and when nothing
matches the operation is a no-op leaving the store identical. -/
theorem deleteAllInDocument_spec (cfg : S3Config) (st : S3Objects)
    (d : Str) :
    (∀ k b, (k, b) ∈ driverDeleteAllInDocument cfg st d ↔
      ((k, b) ∈ st ∧ ¬ ((s3FullKey cfg (d ++ ['/'])).isPrefixOf k = true)))
    ∧ (∀ d2 i2 b, '/' ∉ d → '/' ∉ d2 → d2 ≠ d →
      ((cfg.pfx ++ d2 ++ '/' :: i2, b) ∈ driverDeleteAllInDocument cfg st d
        ↔ (cfg.pfx ++ d2 ++ '/' :: i2, b) ∈ st))
    ∧ ((∀ kv ∈ st, ¬ ((s3FullKey cfg (d ++ ['/'])).isPrefixOf kv.1 = true)) →
      driverDeleteAllInDocument cfg st d = st) := by
  have hmem : ∀ k b, (k, b) ∈ driverDeleteAllInDocument cfg st d ↔
      ((k, b) ∈ st ∧ ¬ ((s3FullKey cfg (d ++ ['/'])).isPrefixOf k = true)) := by
    intro k b
    rw [driverDeleteAllInDocument_eq]
    unfold s3DeleteDirectory
    rw [List.mem_filter]
    simp only [Bool.not_eq_true', Bool.not_eq_true]
  refine ⟨hmem, ?_, ?_⟩
  · intro d2 i2 b hd hd2 hne
    rw [hmem]
    have hpref : ((s3FullKey cfg (d ++ ['/'])).isPrefixOf
        (cfg.pfx ++ d2 ++ '/' :: i2)) = ((d ++ ['/']).isPrefixOf (d2 ++ '/' :: i2)) := by
      unfold s3FullKey
      rw [List.append_assoc]
      exact isPrefixOf_append_cancel cfg.pfx (d ++ ['/']) (d2 ++ '/' :: i2)
    constructor
    · exact fun h => h.1
    · intro h
      refine ⟨h, ?_⟩
      rw [hpref]
      intro hcontra
      exact hne (seg_slash_determines i2 d d2 hd hd2 hcontra).symm
  · intro hnone
    rw [driverDeleteAllInDocument_eq]
    unfold s3DeleteDirectory
    rw [List.filter_eq_self]
    intro kv hkv
    simp only [Bool.not_eq_true']
    cases hB : List.isPrefixOf (s3FullKey cfg (d ++ ['/'])) kv.1 with
    | false => rfl
    | true => exact absurd hB (hnone kv hkv)

/-- Witness for C1: on an empty registry, `colA` registers its address;
`colB` (same address, different URL) then fails naming both URLs; `colC`
(same bucket, distinct prefix) succeeds. -/
theorem s3AttachmentDriver_registry_spec_witness :
    lookupReg (s3AttachmentDriver [] colA).2
      (mkFullEndpoint colA.hostname (str "bkt") (str "users-attachments/"))
      = some colA.url
    ∧ (s3AttachmentDriver (s3AttachmentDriver [] colA).2 colB).1
      = .error (.storageEndpointSharing
          (mkFullEndpoint colB.hostname (str "bkt") (str "users-attachments/"))
          colA.url colB.url)
    ∧ (s3AttachmentDriver (s3AttachmentDriver [] colA).2 colC).1
      = .ok (mkDriver colC (str "bkt") (str "jobs-attachments/")) := by
  have hA := s3AttachmentDriver_registry_spec [] colA
    (str "bkt") (str "users-attachments/") (by decide)
  have hB := s3AttachmentDriver_registry_spec (s3AttachmentDriver [] colA).2 colB
    (str "bkt") (str "users-attachments/") (by decide)
  refine ⟨(hA.1 (by decide)).2, ?_, ?_⟩
  · rw [hB.2.2.1 colA.url (by decide) (by decide)]
  · exact hA.2.2.2 colC (str "jobs-attachments/") (by decide) (by decide)
      (by decide) (by decide) (by decide)

/-- Witness for C10: the construction of `colBad` (single-segment backend
path) fails and leaves the empty registry empty. -/
theorem s3AttachmentDriver_error_preserves_registry_witness :
    (s3AttachmentDriver [] colBad).2 = ([] : Registry) :=
  s3AttachmentDriver_error_preserves_registry [] colBad .missingBucketPrefix
    (by decide)

/-- Witness for C2 (amended): a fresh attachment under the
non-extension-appending driver gets exactly the generated identifier. -/
theorem initAttachment_id_spec_witness :
    (initAttachment drvA entropy0 attNew).id
      = some (randomBase36String 24 entropy0) :=
  ((initAttachment_id_spec drvA entropy0 attNew).1 (by decide)).1

/-- Witness for C3: the recomputed path of a concrete initialized
attachment is its document id, a slash, and its id. -/
theorem initAttachment_path_spec_witness :
    (initAttachment drvA entropy0 attDone).path
      = str "doc1" ++ '/' :: idStr (initAttachment drvA entropy0 attDone).id :=
  initAttachment_path_spec drvA entropy0 attDone (by decide) (by decide)

/-- Witness for C4 (amended): on an empty backend, `load` and
`getReadStream` fail with the typed missing-object error and `delete`
succeeds as a no-op. -/
theorem driver_missing_object_spec_witness :
    driverLoad cfg0 noFaults [] attDone
        = .error (.noSuchKey (s3FullKey cfg0 attDone.path))
    ∧ driverGetReadStream cfg0 noFaults [] attDone
        = .error (.noSuchKey (s3FullKey cfg0 attDone.path))
    ∧ driverDelete cfg0 noFaults [] attDone = .ok [] :=
  (driver_missing_object_spec cfg0 noFaults [] attDone).1 rfl rfl

/-- Witness for C5 (amended): a payload of unsupported shape makes `save`
fail with the unsupported-payload error, and a buffer payload dispatches
to the direct put. -/
theorem driverSave_dispatch_spec_witness :
    driverSave cfg0 noFaults [] attDone = .error .unsupportedPayload
    ∧ driverSave cfg0 noFaults [] attBuf
        = driverSaveContent cfg0 noFaults [] attBuf := by
  constructor
  · exact ((driverSave_dispatch_spec cfg0 noFaults [] attDone).1).mpr rfl
  · exact (driverSave_dispatch_spec cfg0 noFaults [] attBuf).2.2.1 [1, 2, 3] rfl

/-- Witness for C6: a concrete backend path with two non-empty segments
parses into its bucket and slash-terminated prefix. -/
theorem parseBucketPrefix_spec_witness :
    parseBucketPrefix (str "/bkt/users-attachments")
      = .ok (str "bkt", joinSlash [str "users-attachments"] ++ ['/'])
    ∧ (joinSlash [str "users-attachments"] ++ ['/']).getLast? = some '/' := by
  have h := (parseBucketPrefix_spec (str "/bkt/users-attachments")).2
    (str "bkt") [str "users-attachments"] (by decide) (by decide)
  exact ⟨h.1, h.2.1⟩

/-- Witness for C7: a concrete buffer payload and a concrete two-chunk
stream payload both round-trip through save then load. -/
theorem save_load_roundtrip_witness :
    (∃ st2, driverSave cfg0 noFaults [] attBuf = .ok st2
      ∧ driverLoad cfg0 noFaults st2 attBuf = .ok [1, 2, 3])
    ∧ (∃ st2, driverSave cfg0 noFaults [] attStream = .ok st2
      ∧ driverLoad cfg0 noFaults st2 attStream = .ok [1, 2, 3, 4, 5]) := by
  constructor
  · exact (save_load_roundtrip cfg0 noFaults [] attBuf [1, 2, 3] rfl).1 rfl
  · exact (save_load_roundtrip cfg0 noFaults [] attStream
      [1, 2, 3, 4, 5] rfl).2 [[1, 2], [3, 4, 5]] rfl (by decide)

/-- Witness for C8: deleting everything under `doc1` leaves the object of
`doc2` in place, and the operation on an empty backend is a no-op. -/
theorem deleteAllInDocument_spec_witness :
    ((cfg0.pfx ++ str "doc2" ++ '/' :: str "b", [2])
        ∈ driverDeleteAllInDocument cfg0 stDocs (str "doc1")
      ↔ (cfg0.pfx ++ str "doc2" ++ '/' :: str "b", [2]) ∈ stDocs)
    ∧ driverDeleteAllInDocument cfg0 [] (str "doc1") = [] := by
  constructor
  · exact (deleteAllInDocument_spec cfg0 stDocs (str "doc1")).2.1
      (str "doc2") (str "b") [2] (by decide) (by decide) (by decide)
  · exact (deleteAllInDocument_spec cfg0 [] (str "doc1")).2.2 (by decide)

/-- Witness for C9: the concrete string payload is dispatched to the
direct put and raises no unsupported-payload error. -/
theorem driverSave_string_spec_witness :
    driverSave cfg0 noFaults [] attStr0
      = driverSaveContent cfg0 noFaults [] attStr0
    ∧ driverSave cfg0 noFaults [] attStr0 ≠ .error .unsupportedPayload :=
  driverSave_string_spec cfg0 noFaults [] attStr0
    (str "grigrigredin menufretin") rfl

/-- Counterexample to C2 as stated: with `appendExtension` configured and
an extension present, the freshly assigned id is 28 characters long and
contains a dot, so it is not a 24-character base-36 identifier. -/
theorem claim_c2_counterexample :
    attNew.id = none
    ∧ (initAttachment drvExt entropy0 attNew).id
        = some (randomBase36String 24 entropy0 ++ '.' :: str "txt")
    ∧ (idStr (initAttachment drvExt entropy0 attNew).id).length = 28
    ∧ '.' ∈ idStr (initAttachment drvExt entropy0 attNew).id
    ∧ '.' ∉ base36Alphabet := by decide

/-- Counterexample to C4 as stated: with no object at the attachment's
path, `delete` does not fail with a missing-object error — it succeeds
silently. -/
theorem claim_c4_counterexample :
    lookupObj ([] : S3Objects) (s3FullKey cfg0 attDone.path) = none
    ∧ driverDelete cfg0 noFaults [] attDone = .ok [] := by decide

/-- Counterexample to C5 as stated: a string payload is neither a buffer
nor a readable stream, yet `save` does not fail with the
unsupported-payload error. -/
theorem claim_c5_counterexample :
    isBuffer attStr0.incoming = false
    ∧ isReadable attStr0.incoming = false
    ∧ driverSave cfg0 noFaults [] attStr0 ≠ .error .unsupportedPayload := by
  decide
